import Mathlib

/-!
A shallow embedding of the stochastic simulation core of
`monte_carlo_simulation.py` (class `PricingMonteCarloSimulation`):
distribution fitting (`fit_distributions`), scenario-conditioned sampling
(`generate_samples`), derived-total reconstruction, and the descriptive
statistics and risk metrics computed by `run_simulation`.

Modelling conventions:
* A pandas float cell is `Val := Option ℚ`; `none` models NaN.  Arithmetic
  propagates NaN, comparisons against NaN are false, and the pandas
  reductions (`mean`, `std`, `quantile`, `min`, `max`) skip NaN entries,
  exactly as in pandas with its default `skipna=True`.
* External numerical routines that the core merely calls — the scipy MLE
  fitters together with their Kolmogorov-Smirnov tests, the square root
  inside `std`, and the raw pseudo-random draws of numpy/scipy — are taken
  as explicit functional parameters (`FitOracles`, `sq`, `Rng`).  A fit
  oracle returning `none` models the scipy call raising, which the source
  absorbs with `try/except: continue`.  Raw draws are total functions of
  the generator state, reflecting that numpy vector draws do not raise for
  the parameter values produced here.
* Machine floats are idealised as rationals; the claims under study are
  about structure (which parameter the scenario multiplier touches, which
  columns exist, orderings of quantile statistics), not about rounding.
-/

namespace MonteCarlo

/-- A pandas float cell: `none` models NaN (missing / not-a-number). -/
abbrev Val := Option ℚ

/-- NaN-propagating addition on float cells. -/
def vAdd : Val → Val → Val
  | some a, some b => some (a + b)
  | _, _ => none

/-- NaN-propagating subtraction on float cells. -/
def vSub : Val → Val → Val
  | some a, some b => some (a - b)
  | _, _ => none

/-- NaN-propagating multiplication on float cells. -/
def vMul : Val → Val → Val
  | some a, some b => some (a * b)
  | _, _ => none

/-- NaN-propagating division on float cells (division by zero gives NaN). -/
def vDiv : Val → Val → Val
  | some a, some b => if b = 0 then none else some (a / b)
  | _, _ => none

/-- Strict `<` on float cells; any comparison involving NaN is false. -/
def vltB : Val → Val → Bool
  | some a, some b => decide (a < b)
  | _, _ => false

/-- Comparison `≤` between a rational and a float cell; false when the cell is NaN. -/
def leVal (x : ℚ) : Val → Bool
  | some q => decide (x ≤ q)
  | none => false

/-- Pandas `Series.dropna`: keep only the non-NaN entries. -/
def dropNa (xs : List Val) : List ℚ := xs.filterMap id

/-- Pandas `Series.mean` on clean data: NaN on an empty column. -/
def meanQ (xs : List ℚ) : Val :=
  if xs.isEmpty then none else some (xs.sum / xs.length)

/-- Ascending sort, as pandas uses for quantiles. -/
def sortQ (xs : List ℚ) : List ℚ := List.insertionSort (· ≤ ·) xs

/-- Pandas `Series.quantile p` with default linear interpolation:
on the ascending sorted values `y₀ … y_{n-1}` return
`y_i + g • (y_{i+1} - y_i)` where `i = ⌊p(n-1)⌋` and `g = p(n-1) - i`;
NaN on an empty column. -/
def quantileQ (p : ℚ) (xs : List ℚ) : Val :=
  let ys := sortQ xs
  if ys.isEmpty then none
  else
    let h : ℚ := p * ((ys.length - 1 : ℕ) : ℚ)
    let i : ℕ := ⌊h⌋₊
    let g : ℚ := h - (i : ℚ)
    if i + 1 < ys.length then
      some (ys.getD i 0 + g * (ys.getD (i + 1) 0 - ys.getD i 0))
    else some (ys.getD i 0)

/-- Sample variance with `ddof = 1` (pandas `Series.std` squared): NaN on
columns of length `< 2`. -/
def varD1 (xs : List ℚ) : Val :=
  match meanQ xs with
  | none => none
  | some mu =>
    if xs.length < 2 then none
    else some ((xs.map (fun x => (x - mu) ^ 2)).sum / ((xs.length - 1 : ℕ) : ℚ))

/-- Pandas `Series.std` (`ddof = 1`), with the square root `sq` supplied as an
oracle for the irrational part. -/
def stdQ (sq : ℚ → ℚ) (xs : List ℚ) : Val := (varD1 xs).map sq

/-- The parameter tuple returned by each scipy fitter, tagged by family:
`norm.fit` gives `(loc, scale)`, `lognorm.fit` and `gamma.fit` give
`(shape, loc, scale)`, `beta.fit` gives `(a, b, loc, scale)`, and the
`uniform` parameters are simply the observed `(min, max)` (possibly NaN on
an empty column, hence `Val`). -/
inductive FitParams where
  | pNorm (loc scale : ℚ)
  | pLognorm (s loc scale : ℚ)
  | pGamma (a loc scale : ℚ)
  | pBeta (a b loc scale : ℚ)
  | pUniform (lo hi : Val)
deriving DecidableEq

/-- The per-column record stored in `self.distributions[col]`:
best family name, its parameters, its KS statistic (`none` models the
initial infinite KS value kept when no family fit), and the empirical
`data_range`, `mean` and `std` of the column. -/
structure DistInfo where
  distribution : Option String
  params : Option FitParams
  ks_statistic : Val
  data_range : Val × Val
  mean : Val
  std : Val
deriving DecidableEq

/-- The scipy fitting calls, abstracted: each returns the fitted parameter
tuple together with the KS statistic of the fit, or `none` when the scipy
call raises (absorbed by the `try/except` in the source).  The `uniform`
family needs no optimizer, only a KS test of the `(min, max)` parameters. -/
structure FitOracles where
  normFit : List ℚ → Option ((ℚ × ℚ) × ℚ)
  lognormFit : List ℚ → Option ((ℚ × ℚ × ℚ) × ℚ)
  gammaFit : List ℚ → Option ((ℚ × ℚ × ℚ) × ℚ)
  betaFit : List Val → Option ((ℚ × ℚ × ℚ × ℚ) × ℚ)
  uniformKs : List ℚ → Val → Val → Option ℚ

/-- The min-max normalisation `(x - min) / (max - min)` applied to the
column before the beta fit; when all values coincide the denominator is
zero and every float entry is NaN. -/
def dataNormalized (xs : List ℚ) : List Val :=
  match xs.min?, xs.max? with
  | some lo, some hi =>
    xs.map (fun x => if hi = lo then none else some ((x - lo) / (hi - lo)))
  | _, _ => []

/-- One iteration of the candidate-family loop body: fit the named family
and return its parameters and KS statistic, or `none` when the family is
skipped (the positivity guard of `lognorm`/`gamma` failing, an unknown
name) or the scipy call raises. -/
def tryFamily (oc : FitOracles) (xs : List ℚ) (dname : String) :
    Option (FitParams × ℚ) :=
  if dname = "norm" then
    (oc.normFit xs).map (fun r => (FitParams.pNorm r.1.1 r.1.2, r.2))
  else if dname = "lognorm" then
    if xs.all (fun x => decide (0 < x)) then
      (oc.lognormFit xs).map (fun r => (FitParams.pLognorm r.1.1 r.1.2.1 r.1.2.2, r.2))
    else none
  else if dname = "gamma" then
    if xs.all (fun x => decide (0 < x)) then
      (oc.gammaFit xs).map (fun r => (FitParams.pGamma r.1.1 r.1.2.1 r.1.2.2, r.2))
    else none
  else if dname = "beta" then
    (oc.betaFit (dataNormalized xs)).map
      (fun r => (FitParams.pBeta r.1.1 r.1.2.1 r.1.2.2.1 r.1.2.2.2, r.2))
  else if dname = "uniform" then
    (oc.uniformKs xs xs.min? xs.max?).map
      (fun k => (FitParams.pUniform xs.min? xs.max?, k))
  else none

/-- The running `(best_dist, best_params, best_ks_stat)` triple of the
candidate loop. -/
structure BestFit where
  dist : Option String
  params : Option FitParams
  ks : Val
deriving DecidableEq

/-- The comparison `ks_stat < best_ks_stat`, where `none` models the
initial infinite value. -/
def ltKs (k : ℚ) : Val → Bool
  | none => true
  | some b => decide (k < b)

/-- The update of the running best fit by one candidate family. -/
def fitStep (oc : FitOracles) (xs : List ℚ) (best : BestFit) (dname : String) :
    BestFit :=
  match tryFamily oc xs dname with
  | none => best
  | some (p, k) => if ltKs k best.ks then ⟨some dname, some p, some k⟩ else best

/-- The whole per-column body of `fit_distributions`: run the candidate
loop from `(None, None, inf)` and store the winner together with the
empirical range, mean and std of the column. -/
def fitColumn (oc : FitOracles) (sq : ℚ → ℚ) (tds : List String) (xs : List ℚ) :
    DistInfo :=
  let best := tds.foldl (fitStep oc xs) ⟨none, none, none⟩
  { distribution := best.dist
    params := best.params
    ks_statistic := best.ks
    data_range := (xs.min?, xs.max?)
    mean := meanQ xs
    std := stdQ sq xs }

/-- The five modeled numeric columns (`self.numeric_columns`). -/
def numeric_columns : List String :=
  ["Material_Cost", "Labor_Cost", "Profit_Rate", "Discount_or_Markup", "Total_Estimate"]

/-- The default candidate family list of `fit_distributions`. -/
def defaultTestDists : List String := ["norm", "lognorm", "gamma", "beta", "uniform"]

/-- The cleaned input DataFrame: named float columns. -/
abbrev Dataset := List (String × List Val)

/-- Column access, `col in data.columns` and `data[col]` combined. -/
def getCol (d : Dataset) (c : String) : Option (List Val) :=
  (d.find? (fun p => p.1 = c)).map (fun p => p.2)

/-- The method `fit_distributions`: for every modeled numeric column present in the
dataset, drop NaN and fit; columns absent from the dataset are skipped.
The result is the `self.distributions` map in insertion order. -/
def fit_distributions (oc : FitOracles) (sq : ℚ → ℚ) (data : Dataset)
    (tds : List String) : List (String × DistInfo) :=
  numeric_columns.filterMap (fun col =>
    (getCol data col).map (fun vals => (col, fitColumn oc sq tds (dropNa vals))))

/-- The pseudo-random generator state, exposed as the raw draw streams the
numpy/scipy calls consume, indexed by column name and sample index:
`znorm` are the standard-normal deviates underlying `np.random.normal`
(`normal(loc, scale) = loc + scale·z`), `unif` the `[0,1)` deviates
underlying `np.random.uniform` (`uniform(a,b) = a + (b-a)·u`), and the
`…Raw` streams are the raw `stats.<family>.rvs(*params)` draws, which
depend on the fitted parameters but not on the scenario multiplier. -/
structure Rng where
  znorm : String → ℕ → ℚ
  unif : String → ℕ → ℚ
  lognormRaw : ℚ × ℚ × ℚ → String → ℕ → ℚ
  gammaRaw : ℚ × ℚ × ℚ → String → ℕ → ℚ
  betaRaw : ℚ × ℚ × ℚ × ℚ → String → ℕ → ℚ

/-- Numpy `np.random.normal(loc, scale)` as `loc + scale·z` for a standard
normal deviate `z`; NaN parameters give NaN samples. -/
def normalDraw (loc scale : Val) (z : ℚ) : Val :=
  vAdd loc (vMul scale (some z))

/-- Numpy `np.random.uniform(lo, hi)` as `lo + (hi - lo)·u` for a `[0,1)`
deviate `u`. -/
def uniformDraw (lo hi : Val) (u : ℚ) : Val :=
  vAdd lo (vMul (vSub hi lo) (some u))

/-- The per-column sampling dispatch of `generate_samples`:
`norm` draws `normal(loc·adj, scale)`; `lognorm`/`gamma` draw raw samples
from the fitted parameters and multiply the vector by `adj`; `beta` draws
from the fitted `[0,1]` distribution, denormalises with the stored
`data_range` and multiplies by `adj`; `uniform` draws from
`uniform(lo·adj, hi·adj)`; the family-less fallback draws
`normal(mean·adj, std)` from the empirical moments. -/
def genColumn (rng : Rng) (col : String) (info : DistInfo) (adj : ℚ) (n : ℕ) :
    List Val :=
  match info.params with
  | some (FitParams.pNorm loc scale) =>
    (List.range n).map (fun i =>
      normalDraw (some (loc * adj)) (some scale) (rng.znorm col i))
  | some (FitParams.pLognorm s loc scale) =>
    (List.range n).map (fun i => some (rng.lognormRaw (s, loc, scale) col i * adj))
  | some (FitParams.pGamma a loc scale) =>
    (List.range n).map (fun i => some (rng.gammaRaw (a, loc, scale) col i * adj))
  | some (FitParams.pBeta a b loc scale) =>
    (List.range n).map (fun i =>
      vMul (vAdd (vMul (some (rng.betaRaw (a, b, loc, scale) col i))
        (vSub info.data_range.2 info.data_range.1)) info.data_range.1) (some adj))
  | some (FitParams.pUniform lo hi) =>
    (List.range n).map (fun i =>
      uniformDraw (vMul lo (some adj)) (vMul hi (some adj)) (rng.unif col i))
  | none =>
    (List.range n).map (fun i =>
      normalDraw (vMul info.mean (some adj)) info.std (rng.znorm col i))

/-- The scenario-adjustment lookup: multiplier of the scenario spec when
the column is listed, `1.0` otherwise. -/
def lookupAdj (adjs : List (String × ℚ)) (col : String) : ℚ :=
  match adjs.find? (fun p => p.1 = col) with
  | some p => p.2
  | none => 1

/-- A generated sample table: columns in insertion order. -/
abbrev SampleTable := List (String × List Val)

/-- Column access on a sample table (empty when absent, which the source
never does after its membership checks). -/
def getColS (t : SampleTable) (c : String) : List Val :=
  ((t.find? (fun p => p.1 = c)).map (fun p => p.2)).getD []

/-- The four cost-component columns required for the derived total. -/
def componentCols : List String :=
  ["Material_Cost", "Labor_Cost", "Profit_Rate", "Discount_or_Markup"]

/-- The elementwise derived total
`base + base·(profit/100) + discount` with `base = material + labor`. -/
def derivedTotal (mat lab prof disc : List Val) (n : ℕ) : List Val :=
  (List.range n).map (fun i =>
    let base := vAdd (mat.getD i none) (lab.getD i none)
    let profit := vMul base (vDiv (prof.getD i none) (some 100))
    vAdd (vAdd base profit) (disc.getD i none))

/-- The method `generate_samples`: raises (`Except.error`) when the fitted map is
empty; otherwise one sampled column per fitted variable, in map order,
plus the `Total_Estimate_Calculated` column when all four cost components
are present. -/
def generate_samples (rng : Rng) (dists : List (String × DistInfo)) (n : ℕ)
    (adjs : List (String × ℚ)) : Except String SampleTable :=
  if dists.isEmpty then
    Except.error "Distributions belum di-fit. Jalankan fit_distributions() dulu."
  else
    let t : SampleTable :=
      dists.map (fun p => (p.1, genColumn rng p.1 p.2 (lookupAdj adjs p.1) n))
    if componentCols.all (fun c => (t.map Prod.fst).contains c) then
      Except.ok (t ++ [("Total_Estimate_Calculated",
        derivedTotal (getColS t "Material_Cost") (getColS t "Labor_Cost")
          (getColS t "Profit_Rate") (getColS t "Discount_or_Markup") n)])
    else Except.ok t

/-- Pandas `Series.quantile` on a float column: pandas drops NaN first. -/
def quantileV (p : ℚ) (xs : List Val) : Val := quantileQ p (dropNa xs)

/-- The expression `(samples[col] < baseline_mean).mean()`: fraction of cells strictly
below the reference (NaN cells compare false); NaN on an empty column. -/
def probLoss (xs : List Val) (m : Val) : Val :=
  if xs.isEmpty then none
  else some ((xs.countP (fun x => vltB x m) : ℚ) / (xs.length : ℚ))

/-- The lower tail `samples[col][samples[col] <= q05]` as clean rationals
(NaN cells compare false and are excluded; if the quantile itself is NaN
the tail is empty). -/
def tailFilter (xs : List Val) : List ℚ :=
  (dropNa xs).filter (fun x => leVal x (quantileV 0.05 xs))

/-- Metrics `cvar_95` and `expected_shortfall`: mean of the values at or below the
5th percentile. -/
def cvar95 (xs : List Val) : Val := meanQ (tailFilter xs)

/-- The per-column descriptive statistics block of `run_simulation`. -/
structure ColStats where
  mean : Val
  median : Val
  std : Val
  min : Val
  max : Val
  q25 : Val
  q75 : Val
  q95 : Val
  q99 : Val
deriving DecidableEq

/-- The descriptive statistics of one sample column (pandas reductions
skip NaN). -/
def computeStats (sq : ℚ → ℚ) (xs : List Val) : ColStats :=
  { mean := meanQ (dropNa xs)
    median := quantileV 0.5 xs
    std := stdQ sq (dropNa xs)
    min := (dropNa xs).min?
    max := (dropNa xs).max?
    q25 := quantileV 0.25 xs
    q75 := quantileV 0.75 xs
    q95 := quantileV 0.95 xs
    q99 := quantileV 0.99 xs }

/-- The risk-metrics block of `run_simulation`. -/
structure RiskMetrics where
  var_95 : Val
  var_99 : Val
  cvar_95 : Val
  prob_loss : Val
  expected_shortfall : Val
deriving DecidableEq

/-- The risk metrics of one sample column against a reference mean. -/
def computeRisk (xs : List Val) (refMean : Val) : RiskMetrics :=
  { var_95 := quantileV 0.05 xs
    var_99 := quantileV 0.01 xs
    cvar_95 := cvar95 xs
    prob_loss := probLoss xs refMean
    expected_shortfall := cvar95 xs }

/-- Prefix test on character lists (structural, kernel-reducible). -/
def prefixOfList : List Char → List Char → Bool
  | [], _ => true
  | _ :: _, [] => false
  | a :: as, b :: bs => a == b && prefixOfList as bs

/-- Substring test on character lists. -/
def containsSub (needle : List Char) : List Char → Bool
  | [] => needle.isEmpty
  | b :: bs => prefixOfList needle (b :: bs) || containsSub needle bs

/-- The Python substring test, true when the column name contains the
text Total_Estimate. -/
def containsTE (s : String) : Bool :=
  containsSub "Total_Estimate".toList s.toList

/-- The reference mean actually used by `run_simulation` line 235: the
historical dataset mean of `Total_Estimate` when that column exists in the
dataset, else the mean of the scenario column itself. -/
def baselineMeanFor (data : Dataset) (colSamples : List Val) : Val :=
  match getCol data "Total_Estimate" with
  | some vals => meanQ (dropNa vals)
  | none => meanQ (dropNa colSamples)

/-- One scenario entry of the results map. -/
structure ScenResult where
  samples : SampleTable
  statistics : List (String × ColStats)
  risk_metrics : List (String × RiskMetrics)
deriving DecidableEq

/-- The per-scenario body of `run_simulation`: sample, then descriptive
statistics for every column, then risk metrics for every column whose name
contains `Total_Estimate`. -/
def runScen (sq : ℚ → ℚ) (rng : Rng) (data : Dataset)
    (dists : List (String × DistInfo)) (n : ℕ) (adjs : List (String × ℚ)) :
    Except String ScenResult :=
  match generate_samples rng dists n adjs with
  | Except.error e => Except.error e
  | Except.ok t =>
    Except.ok
      { samples := t
        statistics := t.map (fun p => (p.1, computeStats sq p.2))
        risk_metrics := (t.filter (fun p => containsTE p.1)).map
          (fun p => (p.1, computeRisk p.2 (baselineMeanFor data p.2))) }

/-- The method `run_simulation`: iterate the named scenario specs in order, each with
its portion of the generator stream; a raise in any scenario propagates. -/
def run_simulation (sq : ℚ → ℚ) (rngs : String → Rng) (data : Dataset)
    (dists : List (String × DistInfo)) (n : ℕ) :
    List (String × List (String × ℚ)) → Except String (List (String × ScenResult))
  | [] => Except.ok []
  | s :: rest =>
    match runScen sq (rngs s.1) data dists n s.2 with
    | Except.error e => Except.error e
    | Except.ok r =>
      match run_simulation sq rngs data dists n rest with
      | Except.error e => Except.error e
      | Except.ok rs => Except.ok ((s.1, r) :: rs)

/-- The default scenario set of `run_simulation`. -/
def defaultScens : List (String × List (String × ℚ)) :=
  [("baseline", []),
   ("material_increase_10pct", [("Material_Cost", 1.1)]),
   ("labor_increase_15pct", [("Labor_Cost", 1.15)]),
   ("combined_increase", [("Material_Cost", 1.1), ("Labor_Cost", 1.15)])]

/-! ## Helper lemmas -/

/-- A generator state in which every raw draw is `0`; used to instantiate
theorems at concrete inputs. -/
def zeroRng : Rng :=
  ⟨fun _ _ => 0, fun _ _ => 0, fun _ _ _ => 0, fun _ _ _ => 0, fun _ _ _ => 0⟩

/-- A fit-oracle bundle in which every scipy call raises. -/
def failOracles : FitOracles :=
  ⟨fun _ => none, fun _ => none, fun _ => none, fun _ => none, fun _ _ _ => none⟩

theorem genColumn_length (rng : Rng) (col : String) (info : DistInfo) (adj : ℚ)
    (n : ℕ) : (genColumn rng col info adj n).length = n := by
  unfold genColumn
  rcases info with ⟨d, params, ks, r, m, s⟩
  rcases params with _ | p
  · simp
  · rcases p <;> simp

theorem derivedTotal_length (mat lab prof disc : List Val) (n : ℕ) :
    (derivedTotal mat lab prof disc n).length = n := by
  simp [derivedTotal]

theorem generate_samples_ok (rng : Rng) (dists : List (String × DistInfo))
    (n : ℕ) (adjs : List (String × ℚ)) (h : dists ≠ []) :
    ∃ t, generate_samples rng dists n adjs = Except.ok t := by
  have h2 : dists.isEmpty = false := by simp [h]
  simp only [generate_samples, h2, Bool.false_eq_true, if_false]
  split <;> exact ⟨_, rfl⟩

/-- The base sample table: one generated column per fitted variable. -/
def baseTable (rng : Rng) (dists : List (String × DistInfo)) (n : ℕ)
    (adjs : List (String × ℚ)) : SampleTable :=
  dists.map (fun p => (p.1, genColumn rng p.1 p.2 (lookupAdj adjs p.1) n))

theorem generate_samples_eq (rng : Rng) (dists : List (String × DistInfo))
    (n : ℕ) (adjs : List (String × ℚ)) (h : dists ≠ []) :
    generate_samples rng dists n adjs = Except.ok
      (if componentCols.all
          (fun c => ((baseTable rng dists n adjs).map Prod.fst).contains c) then
        baseTable rng dists n adjs ++ [("Total_Estimate_Calculated",
          derivedTotal (getColS (baseTable rng dists n adjs) "Material_Cost")
            (getColS (baseTable rng dists n adjs) "Labor_Cost")
            (getColS (baseTable rng dists n adjs) "Profit_Rate")
            (getColS (baseTable rng dists n adjs) "Discount_or_Markup") n)]
      else baseTable rng dists n adjs) := by
  have h2 : dists.isEmpty = false := by simp [h]
  simp only [generate_samples, h2, Bool.false_eq_true, if_false, baseTable]
  split <;> rfl

theorem baseTable_names (rng : Rng) (dists : List (String × DistInfo)) (n : ℕ)
    (adjs : List (String × ℚ)) :
    (baseTable rng dists n adjs).map Prod.fst = dists.map Prod.fst := by
  simp [baseTable, List.map_map, Function.comp]

theorem lookupAdj_default (adjs : List (String × ℚ)) (col : String)
    (h : col ∉ adjs.map Prod.fst) : lookupAdj adjs col = 1 := by
  have hf : adjs.find? (fun p => p.1 = col) = none := by
    rw [List.find?_eq_none]
    intro x hx
    simp only [decide_eq_true_eq]
    intro hc
    exact h (hc ▸ List.mem_map_of_mem Prod.fst hx)
  rw [lookupAdj, hf]

/-!  Claim theorems.  Each claim of the specification gets exactly one
theorem (plus, where the claim fails on the code, a concrete
counterexample and the amended statement). -/

/-- Claim C8: with identical generator state, two invocations of the
Sampler with the same fitted parameters, the same `n` and the same
scenario spec yield identical sample tables.  In this embedding the whole
generator state is the explicit `Rng` argument, so sampling is a pure
function of it. -/
theorem claim_C8 (rng1 rng2 : Rng) (dists : List (String × DistInfo)) (n : ℕ)
    (adjs : List (String × ℚ)) (h : rng1 = rng2) :
    generate_samples rng1 dists n adjs = generate_samples rng2 dists n adjs := by
  rw [h]

/-- Witness for C8 at a concrete input. -/
theorem claim_C8_witness :
    generate_samples zeroRng [] 3 [] = generate_samples zeroRng [] 3 [] :=
  claim_C8 zeroRng zeroRng [] 3 [] rfl

/-- Claim C3: the `i`-th sample of a column is, per best-fit family:
`norm` — `loc·m + scale·z` (the multiplier scales the mean only, the
scale parameter is untouched); `lognorm`/`gamma` — the raw fitted-parameter
draw multiplied by `m`; `beta` — the raw draw denormalised to the stored
`data_range` and then multiplied by `m`; `uniform` — a draw from
`uniform(lo·m, hi·m)`; family-less fallback — `normal(mean·m, std)` from
the empirical moments. -/
theorem claim_C3 (rng : Rng) (col : String) (info : DistInfo) (adj : ℚ)
    (n i : ℕ) (hin : i < n) :
    (∀ loc scale, info.params = some (FitParams.pNorm loc scale) →
      (genColumn rng col info adj n).getD i none =
        some (loc * adj + scale * rng.znorm col i)) ∧
    (∀ s loc scale, info.params = some (FitParams.pLognorm s loc scale) →
      (genColumn rng col info adj n).getD i none =
        some (rng.lognormRaw (s, loc, scale) col i * adj)) ∧
    (∀ a loc scale, info.params = some (FitParams.pGamma a loc scale) →
      (genColumn rng col info adj n).getD i none =
        some (rng.gammaRaw (a, loc, scale) col i * adj)) ∧
    (∀ a b loc scale, info.params = some (FitParams.pBeta a b loc scale) →
      (genColumn rng col info adj n).getD i none =
        vMul (vAdd (vMul (some (rng.betaRaw (a, b, loc, scale) col i))
          (vSub info.data_range.2 info.data_range.1)) info.data_range.1)
          (some adj)) ∧
    (∀ lo hi, info.params = some (FitParams.pUniform lo hi) →
      (genColumn rng col info adj n).getD i none =
        uniformDraw (vMul lo (some adj)) (vMul hi (some adj)) (rng.unif col i)) ∧
    (info.params = none →
      (genColumn rng col info adj n).getD i none =
        normalDraw (vMul info.mean (some adj)) info.std (rng.znorm col i)) := by
  refine ⟨?_, ?_, ?_, ?_, ?_, ?_⟩ <;>
    first
      | (intro loc scale hp
         simp [genColumn, hp, List.getD, List.getElem?_map,
           List.getElem?_range, hin, normalDraw, vAdd, vMul])
      | (intro s loc scale hp
         simp [genColumn, hp, List.getD, List.getElem?_map,
           List.getElem?_range, hin])
      | (intro a b loc scale hp
         simp [genColumn, hp, List.getD, List.getElem?_map,
           List.getElem?_range, hin])
      | (intro hp
         simp [genColumn, hp, List.getD, List.getElem?_map,
           List.getElem?_range, hin])

/-- Concrete fitted record for the C3 witness: best family `norm` with
parameters `(3, 5)`. -/
def demoNormInfo : DistInfo :=
  { distribution := some "norm", params := some (FitParams.pNorm 3 5),
    ks_statistic := some 0, data_range := (some 0, some 10),
    mean := some 3, std := some 5 }

/-- Witness for C3 at a concrete input: the normal branch with multiplier
`2` shifts the mean to `3·2` while the scale stays `5`. -/
theorem claim_C3_witness :
    demoNormInfo.params = some (FitParams.pNorm 3 5) ∧
    (genColumn zeroRng "Material_Cost" demoNormInfo 2 1).getD 0 none =
      some (3 * 2 + 5 * zeroRng.znorm "Material_Cost" 0) :=
  ⟨rfl, (claim_C3 zeroRng "Material_Cost" demoNormInfo 2 1 0 (by decide)).1 3 5 rfl⟩

theorem tryFamily_lognorm_of_nonpos (oc : FitOracles) (xs : List ℚ)
    (h : xs.all (fun x => decide (0 < x)) = false) :
    tryFamily oc xs "lognorm" = none := by
  simp [tryFamily, h]

theorem tryFamily_gamma_of_nonpos (oc : FitOracles) (xs : List ℚ)
    (h : xs.all (fun x => decide (0 < x)) = false) :
    tryFamily oc xs "gamma" = none := by
  simp [tryFamily, h]

theorem fitFold_excludes (oc : FitOracles) (xs : List ℚ)
    (h : xs.all (fun x => decide (0 < x)) = false) (tds : List String)
    (best : BestFit) (h1 : best.dist ≠ some "lognorm")
    (h2 : best.dist ≠ some "gamma") :
    (tds.foldl (fitStep oc xs) best).dist ≠ some "lognorm" ∧
    (tds.foldl (fitStep oc xs) best).dist ≠ some "gamma" := by
  induction tds generalizing best with
  | nil => exact ⟨h1, h2⟩
  | cons d rest ih =>
    refine ih (fitStep oc xs best d) ?_ ?_ <;>
    · unfold fitStep
      rcases htf : tryFamily oc xs d with _ | ⟨p, k⟩
      · simp only [htf]
        assumption
      · by_cases hd : d = "lognorm"
        · rw [hd, tryFamily_lognorm_of_nonpos oc xs h] at htf
          exact absurd htf (by simp)
        · by_cases hg : d = "gamma"
          · rw [hg, tryFamily_gamma_of_nonpos oc xs h] at htf
            exact absurd htf (by simp)
          · simp only [htf]
            by_cases hk : ltKs k best.ks = true
            · simp [hk, hd, hg]
            · simp only [hk, if_false]
              assumption

/-- Claim C6: for a column whose (cleaned) data contains a value `≤ 0`,
the positivity guards exclude the log-normal and gamma families, so the
selected best fit is never one of them; the fitter is a total function
(scipy failures are absorbed by the `Option`-valued oracles, mirroring the
`try/except: continue` of the source), so the fitting pass never raises. -/
theorem claim_C6 (oc : FitOracles) (sq : ℚ → ℚ) (tds : List String)
    (xs : List ℚ) (hx : ∃ x ∈ xs, x ≤ 0) :
    (fitColumn oc sq tds xs).distribution ≠ some "lognorm" ∧
    (fitColumn oc sq tds xs).distribution ≠ some "gamma" := by
  have hall : xs.all (fun x => decide (0 < x)) = false := by
    rcases hx with ⟨x, hmem, hle⟩
    rw [List.all_eq_false]
    exact ⟨x, hmem, by simpa using not_lt.mpr hle⟩
  exact fitFold_excludes oc xs hall tds ⟨none, none, none⟩ (by simp) (by simp)

/-- Oracles in which every family claims a perfect fit; the C6 witness
shows the guard, not an oracle failure, blocks lognorm/gamma. -/
def eagerOracles : FitOracles :=
  ⟨fun _ => some ((0, 1), 1/2), fun _ => some ((1, 0, 1), 0),
   fun _ => some ((1, 0, 1), 0), fun _ => some ((1, 1, 0, 1), 0),
   fun _ _ _ => some (1/4)⟩

/-- Witness for C6 at a concrete input containing a negative value. -/
theorem claim_C6_witness :
    (∃ x ∈ [(-1 : ℚ), 1], x ≤ 0) ∧
    (fitColumn eagerOracles id defaultTestDists [-1, 1]).distribution ≠
      some "lognorm" :=
  ⟨⟨-1, by simp, by norm_num⟩,
   (claim_C6 eagerOracles id defaultTestDists [-1, 1]
     ⟨-1, by simp, by norm_num⟩).1⟩

theorem fitFold_all_none (oc : FitOracles) (xs : List ℚ) (tds : List String)
    (hfail : ∀ d ∈ tds, tryFamily oc xs d = none) :
    tds.foldl (fitStep oc xs) ⟨none, none, none⟩ = ⟨none, none, none⟩ := by
  induction tds with
  | nil => rfl
  | cons d rest ih =>
    have hstep : fitStep oc xs ⟨none, none, none⟩ d = ⟨none, none, none⟩ := by
      unfold fitStep
      rw [hfail d (by simp)]
    rw [List.foldl_cons, hstep]
    exact ih (fun e he => hfail e (by simp [he]))

/-- Claim C10: after a fitting pass, the map contains an entry for every
modeled numeric column present in the dataset; the entry always records
the empirical min/max range, mean and standard deviation of the (cleaned)
column, and when every candidate family fails it carries family `None`
with the initial infinite KS statistic (modeled as `none`), so the
empirical-normal fallback of the Sampler is available for every present
column. -/
theorem claim_C10 (oc : FitOracles) (sq : ℚ → ℚ) (data : Dataset)
    (tds : List String) (col : String) (vals : List Val)
    (hc : col ∈ numeric_columns) (hv : getCol data col = some vals) :
    (col, fitColumn oc sq tds (dropNa vals)) ∈ fit_distributions oc sq data tds ∧
    (fitColumn oc sq tds (dropNa vals)).data_range =
      ((dropNa vals).min?, (dropNa vals).max?) ∧
    (fitColumn oc sq tds (dropNa vals)).mean = meanQ (dropNa vals) ∧
    (fitColumn oc sq tds (dropNa vals)).std = stdQ sq (dropNa vals) ∧
    ((∀ d ∈ tds, tryFamily oc (dropNa vals) d = none) →
      (fitColumn oc sq tds (dropNa vals)).distribution = none ∧
      (fitColumn oc sq tds (dropNa vals)).params = none ∧
      (fitColumn oc sq tds (dropNa vals)).ks_statistic = none) := by
  refine ⟨?_, rfl, rfl, rfl, ?_⟩
  · rw [fit_distributions, List.mem_filterMap]
    exact ⟨col, hc, by rw [hv]; rfl⟩
  · intro hfail
    unfold fitColumn
    rw [fitFold_all_none oc (dropNa vals) tds hfail]
    exact ⟨rfl, rfl, rfl⟩

/-- Witness for C10: a dataset holding only a `Material_Cost` column, with
oracles in which every scipy call raises. -/
theorem claim_C10_witness :
    ("Material_Cost",
      fitColumn failOracles id defaultTestDists (dropNa [some 4, none, some 6])) ∈
      fit_distributions failOracles id
        [("Material_Cost", [some 4, none, some 6])] defaultTestDists ∧
    (fitColumn failOracles id defaultTestDists
      (dropNa [some 4, none, some 6])).mean = meanQ (dropNa [some 4, none, some 6]) ∧
    (fitColumn failOracles id defaultTestDists
      (dropNa [some 4, none, some 6])).distribution = none := by
  have h := claim_C10 failOracles id
    [("Material_Cost", [some 4, none, some 6])] defaultTestDists
    "Material_Cost" [some 4, none, some 6] (by simp [numeric_columns]) rfl
  exact ⟨h.1, h.2.2.1, (h.2.2.2.2 (by decide)).1⟩

/-- Counterexample to claim C9: a fitting pass over a dataset that
contains none of the modeled numeric columns leaves the fitted map empty,
and sampling afterwards still raises the `MissingDistributions` error —
so "a fitting pass has run" does not prevent the raise. -/
theorem claim_C9_counterexample :
    fit_distributions failOracles id [("Other_Column", [some 1, some 2])]
      defaultTestDists = [] ∧
    generate_samples zeroRng
      (fit_distributions failOracles id [("Other_Column", [some 1, some 2])]
        defaultTestDists) 5 [] =
      Except.error "Distributions belum di-fit. Jalankan fit_distributions() dulu." :=
  ⟨rfl, rfl⟩

/-- Claim C9, amended: sampling raises the fatal caller error exactly when
the fitted-distributions map is empty.  It therefore raises before any
fitting pass; a fitting pass makes it non-empty — and sampling raise-free —
exactly when the dataset contains at least one modeled numeric column. -/
theorem claim_C9_amended :
    (∀ (rng : Rng) (dists : List (String × DistInfo)) (n : ℕ)
      (adjs : List (String × ℚ)), dists = [] →
      generate_samples rng dists n adjs =
        Except.error "Distributions belum di-fit. Jalankan fit_distributions() dulu.") ∧
    (∀ (rng : Rng) (dists : List (String × DistInfo)) (n : ℕ)
      (adjs : List (String × ℚ)), dists ≠ [] →
      ∃ t, generate_samples rng dists n adjs = Except.ok t) ∧
    (∀ (oc : FitOracles) (sq : ℚ → ℚ) (data : Dataset) (tds : List String),
      (∃ c ∈ numeric_columns, (getCol data c).isSome) →
      fit_distributions oc sq data tds ≠ []) := by
  refine ⟨?_, ?_, ?_⟩
  · intro rng dists n adjs h
    subst h
    rfl
  · exact fun rng dists n adjs h => generate_samples_ok rng dists n adjs h
  · intro oc sq data tds h
    rcases h with ⟨c, hc, hsome⟩
    rcases Option.isSome_iff_exists.mp hsome with ⟨vals, hv⟩
    refine List.ne_nil_of_mem (a := (c, fitColumn oc sq tds (dropNa vals))) ?_
    rw [fit_distributions, List.mem_filterMap]
    exact ⟨c, hc, by rw [hv]; rfl⟩

/-- Witness for C9 (amended) at concrete inputs. -/
theorem claim_C9_witness :
    generate_samples zeroRng [] 2 [] =
      Except.error "Distributions belum di-fit. Jalankan fit_distributions() dulu." ∧
    (∃ t, generate_samples zeroRng [("Material_Cost", demoNormInfo)] 2 [] =
      Except.ok t) ∧
    fit_distributions failOracles id [("Material_Cost", [some 4])]
      defaultTestDists ≠ [] :=
  ⟨claim_C9_amended.1 zeroRng [] 2 [] rfl,
   claim_C9_amended.2.1 zeroRng [("Material_Cost", demoNormInfo)] 2 [] (by simp),
   claim_C9_amended.2.2 failOracles id [("Material_Cost", [some 4])]
     defaultTestDists ⟨"Material_Cost", by simp [numeric_columns], by simp [getCol]⟩⟩

/-- Counterexample to claim C2: statistics and risk metrics over a
zero-length column (scenario run with `n = 0`) do not signal any error —
the run returns normally with every statistic NaN, exactly as the pandas
reductions do. -/
theorem claim_C2_counterexample :
    runScen id zeroRng [] [("Total_Estimate", demoNormInfo)] 0 [] =
      Except.ok
        { samples := [("Total_Estimate", [])]
          statistics := [("Total_Estimate",
            ⟨none, none, none, none, none, none, none, none, none⟩)]
          risk_metrics := [("Total_Estimate", ⟨none, none, none, none, none⟩)] } := by
  rfl

/-- Claim C2, amended: the statistics and risk-metric computations are
total and never signal an error.  On a column whose cleaned data is empty
every descriptive statistic, quantile-based risk metric and tail mean is
NaN (`none`) rather than an error (`prob_loss` is the NaN-aware loss
fraction, which is `0` on an all-NaN column and NaN only on a zero-length
one); and a scenario run returns normally whenever the fitted map is
non-empty. -/
theorem claim_C2_amended :
    (∀ (sq : ℚ → ℚ) (xs : List Val), dropNa xs = [] →
      computeStats sq xs = ⟨none, none, none, none, none, none, none, none, none⟩ ∧
      ∀ m, computeRisk xs m = ⟨none, none, none, probLoss xs m, none⟩) ∧
    (∀ (sq : ℚ → ℚ) (rng : Rng) (data : Dataset)
      (dists : List (String × DistInfo)) (n : ℕ) (adjs : List (String × ℚ)),
      dists ≠ [] → ∃ r, runScen sq rng data dists n adjs = Except.ok r) := by
  constructor
  · intro sq xs h
    constructor
    · simp [computeStats, h, meanQ, quantileV, quantileQ, sortQ, stdQ, varD1,
        tailFilter]
    · intro m
      simp [computeRisk, h, meanQ, quantileV, quantileQ, sortQ, cvar95,
        tailFilter]
  · intro sq rng data dists n adjs h
    rcases generate_samples_ok rng dists n adjs h with ⟨t, ht⟩
    exact ⟨_, by rw [runScen, ht]⟩

/-- Witness for C2 (amended) at concrete inputs. -/
theorem claim_C2_witness :
    computeStats id [] = ⟨none, none, none, none, none, none, none, none, none⟩ ∧
    computeRisk [] none = ⟨none, none, none, probLoss [] none, none⟩ ∧
    ∃ r, runScen id zeroRng [] [("Total_Estimate", demoNormInfo)] 0 [] =
      Except.ok r :=
  ⟨(claim_C2_amended.1 id [] rfl).1,
   (claim_C2_amended.1 id [] rfl).2 none,
   claim_C2_amended.2 id zeroRng [] [("Total_Estimate", demoNormInfo)] 0 []
     (by simp)⟩

/-- Claim C5: for every `n ≥ 1` and every scenario spec, the sample table
has exactly `n` rows (every column, the derived one included, has length
`n`), contains the generated column of every fitted variable, and any
variable absent from the scenario spec is sampled with multiplier `1.0`. -/
theorem claim_C5 (rng : Rng) (dists : List (String × DistInfo)) (n : ℕ)
    (adjs : List (String × ℚ)) (t : SampleTable) (_hn : 1 ≤ n)
    (ht : generate_samples rng dists n adjs = Except.ok t) :
    (∀ p ∈ t, (p.2 : List Val).length = n) ∧
    (∀ p ∈ dists, (p.1, genColumn rng p.1 p.2 (lookupAdj adjs p.1) n) ∈ t) ∧
    (∀ p ∈ dists, p.1 ∉ adjs.map Prod.fst →
      (p.1, genColumn rng p.1 p.2 1 n) ∈ t) := by
  rcases List.eq_nil_or_concat dists with hd | ⟨_, _, hd⟩
  · rw [hd] at ht
    exact absurd ht (by simp [generate_samples])
  have hne : dists ≠ [] := by simp [hd]
  rw [generate_samples_eq rng dists n adjs hne] at ht
  have ht2 := (Except.ok.injEq _ _).mp ht
  have hbase : ∀ p ∈ dists,
      (p.1, genColumn rng p.1 p.2 (lookupAdj adjs p.1) n) ∈
        baseTable rng dists n adjs := by
    intro p hp
    exact List.mem_map_of_mem _ hp
  have hlen : ∀ p ∈ baseTable rng dists n adjs, (p.2 : List Val).length = n := by
    intro p hp
    rcases List.mem_map.mp hp with ⟨q, _, hq⟩
    rw [← hq]
    exact genColumn_length rng q.1 q.2 (lookupAdj adjs q.1) n
  refine ⟨?_, ?_, ?_⟩
  · intro p hp
    rw [← ht2] at hp
    by_cases hc : (componentCols.all
        (fun c => ((baseTable rng dists n adjs).map Prod.fst).contains c)) = true
    · rw [if_pos hc] at hp
      rcases List.mem_append.mp hp with hp1 | hp1
      · exact hlen p hp1
      · rcases List.mem_singleton.mp hp1 with rfl
        exact derivedTotal_length _ _ _ _ n
    · rw [if_neg hc] at hp
      exact hlen p hp
  · intro p hp
    rw [← ht2]
    split
    · exact List.mem_append_left _ (hbase p hp)
    · exact hbase p hp
  · intro p hp habs
    have := hbase p hp
    rw [lookupAdj_default adjs p.1 habs] at this
    rw [← ht2]
    split
    · exact List.mem_append_left _ this
    · exact this

/-- Witness for C5 at a concrete input: one fitted variable, empty
scenario spec. -/
theorem claim_C5_witness :
    (∀ p ∈ (baseTable zeroRng [("Material_Cost", demoNormInfo)] 2 []),
      (p.2 : List Val).length = 2) ∧
    ("Material_Cost",
      genColumn zeroRng "Material_Cost" demoNormInfo 1 2) ∈
      baseTable zeroRng [("Material_Cost", demoNormInfo)] 2 [] := by
  have h := claim_C5 zeroRng [("Material_Cost", demoNormInfo)] 2 []
    (baseTable zeroRng [("Material_Cost", demoNormInfo)] 2 []) (by norm_num)
    (by rw [generate_samples_eq _ _ _ _ (by simp)]; rfl)
  exact ⟨h.1, h.2.2 ("Material_Cost", demoNormInfo) (by simp) (by simp)⟩

theorem derivedTotal_getD (mat lab prof disc : List Val) (n i : ℕ)
    (hin : i < n) :
    (derivedTotal mat lab prof disc n).getD i none =
      vAdd (vAdd (vAdd (mat.getD i none) (lab.getD i none))
        (vMul (vAdd (mat.getD i none) (lab.getD i none))
          (vDiv (prof.getD i none) (some 100)))) (disc.getD i none) := by
  simp [derivedTotal, List.getD, List.getElem?_map, List.getElem?_range, hin]

theorem getColS_append_notin (t1 t2 : SampleTable) (c : String)
    (h : c ∉ t1.map Prod.fst) : getColS (t1 ++ t2) c = getColS t2 c := by
  have hf : t1.find? (fun p => p.1 = c) = none := by
    rw [List.find?_eq_none]
    intro x hx
    simp only [decide_eq_true_eq]
    intro hc
    exact h (hc ▸ List.mem_map_of_mem Prod.fst hx)
  rw [getColS, getColS, List.find?_append, hf, Option.none_or]

theorem getColS_append_s (t1 : SampleTable) (c c2 : String) (xs : List Val)
    (h : c ≠ c2) : getColS (t1 ++ [(c2, xs)]) c = getColS t1 c := by
  have hf2 : ([(c2, xs)] : SampleTable).find? (fun p => p.1 = c) = none := by
    simp [List.find?, Ne.symm h]
  rw [getColS, getColS, List.find?_append, hf2, Option.or_none]

theorem getColS_nil_of_notin (t : SampleTable) (c : String)
    (h : c ∉ t.map Prod.fst) : getColS t c = [] := by
  rw [getColS, List.find?_eq_none.mpr]
  · rfl
  · intro x hx
    simp only [decide_eq_true_eq]
    intro hc
    exact h (hc ▸ List.mem_map_of_mem Prod.fst hx)

/-- Claim C4: the output sample table contains the derived
`Total_Estimate_Calculated` column iff all four component variables are
among the fitted variables, and in that case row `i` of the derived column
equals `(material + labor) · (1 + profit/100) + discount`. -/
theorem claim_C4 (rng : Rng) (dists : List (String × DistInfo)) (n : ℕ)
    (adjs : List (String × ℚ)) (t : SampleTable)
    (hTE : "Total_Estimate_Calculated" ∉ dists.map Prod.fst)
    (ht : generate_samples rng dists n adjs = Except.ok t) :
    ("Total_Estimate_Calculated" ∈ t.map Prod.fst ↔
      ∀ c ∈ componentCols, c ∈ dists.map Prod.fst) ∧
    (∀ i a b c d, i < n →
      (getColS t "Material_Cost").getD i none = some a →
      (getColS t "Labor_Cost").getD i none = some b →
      (getColS t "Profit_Rate").getD i none = some c →
      (getColS t "Discount_or_Markup").getD i none = some d →
      (getColS t "Total_Estimate_Calculated").getD i none =
        some ((a + b) * (1 + c / 100) + d)) := by
  rcases List.eq_nil_or_concat dists with hd | ⟨_, _, hd⟩
  · rw [hd] at ht
    exact absurd ht (by simp [generate_samples])
  have hne : dists ≠ [] := by simp [hd]
  rw [generate_samples_eq rng dists n adjs hne] at ht
  have ht2 := (Except.ok.injEq _ _).mp ht
  set base := baseTable rng dists n adjs with hbase
  have hnames : base.map Prod.fst = dists.map Prod.fst :=
    baseTable_names rng dists n adjs
  by_cases hc : (componentCols.all (fun c => (base.map Prod.fst).contains c)) = true
  · rw [if_pos hc] at ht2
    have hcond : ∀ c ∈ componentCols, c ∈ dists.map Prod.fst := by
      intro c hcc
      have := List.all_eq_true.mp hc c hcc
      rw [← hnames]
      simpa using this
    refine ⟨?_, ?_⟩
    · rw [← ht2]
      simp only [List.map_append, List.mem_append]
      exact ⟨fun _ => hcond, fun _ => Or.inr (by simp)⟩
    · intro i a b c d hin ha hb hp hd2
      have hTEb : "Total_Estimate_Calculated" ∉ base.map Prod.fst := by
        rw [hnames]; exact hTE
      have hder : getColS t "Total_Estimate_Calculated" =
          derivedTotal (getColS base "Material_Cost") (getColS base "Labor_Cost")
            (getColS base "Profit_Rate") (getColS base "Discount_or_Markup") n := by
        rw [← ht2, getColS_append_notin _ _ _ hTEb, getColS]
        simp
      have hm : getColS t "Material_Cost" = getColS base "Material_Cost" := by
        rw [← ht2]; exact getColS_append_s _ _ _ _ (by decide)
      have hl : getColS t "Labor_Cost" = getColS base "Labor_Cost" := by
        rw [← ht2]; exact getColS_append_s _ _ _ _ (by decide)
      have hp2 : getColS t "Profit_Rate" = getColS base "Profit_Rate" := by
        rw [← ht2]; exact getColS_append_s _ _ _ _ (by decide)
      have hdc : getColS t "Discount_or_Markup" = getColS base "Discount_or_Markup" := by
        rw [← ht2]; exact getColS_append_s _ _ _ _ (by decide)
      rw [hm] at ha
      rw [hl] at hb
      rw [hp2] at hp
      rw [hdc] at hd2
      rw [hder, derivedTotal_getD _ _ _ _ _ _ hin, ha, hb, hp, hd2]
      have h100 : vDiv (some c) (some 100) = some (c / 100) := by
        simp [vDiv]
      rw [h100]
      simp only [vAdd, vMul]
      ring_nf
  · rw [if_neg hc] at ht2
    have hcond : ¬ ∀ c ∈ componentCols, c ∈ dists.map Prod.fst := by
      intro hall
      apply hc
      rw [List.all_eq_true]
      intro c hcc
      have := hall c hcc
      rw [← hnames] at this
      simpa using this
    refine ⟨?_, ?_⟩
    · rw [← ht2, hnames]
      exact ⟨fun hmem => absurd hmem hTE, fun hall => absurd hall hcond⟩
    · intro i a b c d hin ha hb hp hd2
      exfalso
      apply hcond
      intro cc hcc
      by_contra habs
      have hccn : cc ∉ t.map Prod.fst := by
        rw [← ht2, hnames]; exact habs
      have hnil := getColS_nil_of_notin t cc hccn
      fin_cases hcc
      · rw [hnil] at ha
        simp [List.getD] at ha
      · rw [hnil] at hb
        simp [List.getD] at hb
      · rw [hnil] at hp
        simp [List.getD] at hp
      · rw [hnil] at hd2
        simp [List.getD] at hd2

/-- A degenerate fitted record (no family): the empirical fallback draws
`normal(1·adj, 0)`, i.e. the constant `1` under the zero generator. -/
def demoFlatInfo : DistInfo :=
  { distribution := none, params := none, ks_statistic := none,
    data_range := (some 0, some 2), mean := some 1, std := some 0 }

/-- A fitted map holding exactly the four cost components. -/
def demoDists4 : List (String × DistInfo) :=
  [("Material_Cost", demoFlatInfo), ("Labor_Cost", demoFlatInfo),
   ("Profit_Rate", demoFlatInfo), ("Discount_or_Markup", demoFlatInfo)]

/-- The concrete sample table of the C4 witness. -/
def c4table : SampleTable :=
  (generate_samples zeroRng demoDists4 1 []).toOption.getD []

/-- Witness for C4 at a concrete input: all four components present, one
row, every component sample `1`, derived total `(1+1)·(1+1/100)+1`. -/
theorem claim_C4_witness :
    (getColS c4table "Total_Estimate_Calculated").getD 0 none =
      some ((1 + 1) * (1 + 1 / 100) + 1) := by
  have h := claim_C4 zeroRng demoDists4 1 [] c4table (by decide) (by rfl)
  have hcell : ∀ c, c ∈ componentCols → (getColS c4table c).getD 0 none = some 1 := by
    intro c hc
    fin_cases hc <;>
      norm_num +decide [c4table, generate_samples, demoDists4, demoFlatInfo,
        baseTable, genColumn, lookupAdj, getColS, zeroRng, normalDraw, vAdd,
        vMul, List.find?, componentCols, derivedTotal, vDiv, List.range,
        List.range.loop]
  exact h.2 0 1 1 1 1 (by decide)
    (hcell "Material_Cost" (by decide)) (hcell "Labor_Cost" (by decide))
    (hcell "Profit_Rate" (by decide)) (hcell "Discount_or_Markup" (by decide))

theorem sortQ_ne_nil (xs : List ℚ) (h : xs ≠ []) : sortQ xs ≠ [] := by
  intro h0
  have hlen : (sortQ xs).length = xs.length := List.length_insertionSort _ _
  rw [h0] at hlen
  exact h (List.eq_nil_of_length_eq_zero hlen.symm)

theorem quantileQ_spec (p : ℚ) (xs : List ℚ) (hp0 : 0 ≤ p) (hp1 : p ≤ 1)
    (hne : xs ≠ []) :
    ∃ q, quantileQ p xs = some q ∧ ∃ x ∈ xs, x ≤ q := by
  have hyne : sortQ xs ≠ [] := sortQ_ne_nil xs hne
  have hpos : 0 < (sortQ xs).length := List.length_pos.mpr hyne
  have hsorted : (sortQ xs).Sorted (· ≤ ·) := List.sorted_insertionSort _ _
  have hempty : (sortQ xs).isEmpty = false := by
    simp [List.isEmpty_iff, hyne]
  have hhnn : (0 : ℚ) ≤ p * (((sortQ xs).length - 1 : ℕ) : ℚ) := by positivity
  have him : ⌊p * (((sortQ xs).length - 1 : ℕ) : ℚ)⌋₊ ≤ (sortQ xs).length - 1 := by
    calc ⌊p * (((sortQ xs).length - 1 : ℕ) : ℚ)⌋₊
        ≤ ⌊((((sortQ xs).length - 1 : ℕ)) : ℚ)⌋₊ := by
          apply Nat.floor_mono
          calc p * (((sortQ xs).length - 1 : ℕ) : ℚ)
              ≤ 1 * (((sortQ xs).length - 1 : ℕ) : ℚ) := by
                apply mul_le_mul_of_nonneg_right hp1 (by positivity)
            _ = (((sortQ xs).length - 1 : ℕ) : ℚ) := one_mul _
      _ = (sortQ xs).length - 1 := Nat.floor_natCast _
  have hilt : ⌊p * (((sortQ xs).length - 1 : ℕ) : ℚ)⌋₊ < (sortQ xs).length := by
    omega
  have hg : (0 : ℚ) ≤ p * (((sortQ xs).length - 1 : ℕ) : ℚ) -
      (⌊p * (((sortQ xs).length - 1 : ℕ) : ℚ)⌋₊ : ℚ) :=
    sub_nonneg.mpr (Nat.floor_le hhnn)
  have hgetD : ∀ (j : ℕ) (hj : j < (sortQ xs).length),
      (sortQ xs).getD j 0 = (sortQ xs).get ⟨j, hj⟩ := by
    intro j hj
    simp [List.getD_eq_getElem?_getD, List.getElem?_eq_getElem hj]
  have h0i : (sortQ xs).get ⟨0, hpos⟩ ≤
      (sortQ xs).get ⟨⌊p * (((sortQ xs).length - 1 : ℕ) : ℚ)⌋₊, hilt⟩ :=
    hsorted.rel_get_of_le (Fin.mk_le_mk.mpr (Nat.zero_le _))
  have hmem : (sortQ xs).get ⟨0, hpos⟩ ∈ xs := by
    rw [← List.mem_insertionSort (· ≤ ·) (l := xs)]
    exact List.get_mem _ _ _
  by_cases hcase : ⌊p * (((sortQ xs).length - 1 : ℕ) : ℚ)⌋₊ + 1 < (sortQ xs).length
  · refine ⟨(sortQ xs).getD ⌊p * (((sortQ xs).length - 1 : ℕ) : ℚ)⌋₊ 0 +
      (p * (((sortQ xs).length - 1 : ℕ) : ℚ) -
        (⌊p * (((sortQ xs).length - 1 : ℕ) : ℚ)⌋₊ : ℚ)) *
      ((sortQ xs).getD (⌊p * (((sortQ xs).length - 1 : ℕ) : ℚ)⌋₊ + 1) 0 -
        (sortQ xs).getD ⌊p * (((sortQ xs).length - 1 : ℕ) : ℚ)⌋₊ 0), ?_, ?_⟩
    · rw [quantileQ]
      simp only [hempty, Bool.false_eq_true, if_false, if_pos hcase]
    · refine ⟨(sortQ xs).get ⟨0, hpos⟩, hmem, ?_⟩
      have hnext : (sortQ xs).getD ⌊p * (((sortQ xs).length - 1 : ℕ) : ℚ)⌋₊ 0 ≤
          (sortQ xs).getD (⌊p * (((sortQ xs).length - 1 : ℕ) : ℚ)⌋₊ + 1) 0 := by
        rw [hgetD _ hilt, hgetD _ hcase]
        exact hsorted.rel_get_of_le (Fin.mk_le_mk.mpr (Nat.le_succ _))
      have hstep : (sortQ xs).get ⟨0, hpos⟩ ≤
          (sortQ xs).getD ⌊p * (((sortQ xs).length - 1 : ℕ) : ℚ)⌋₊ 0 := by
        rw [hgetD _ hilt]
        exact h0i
      nlinarith [mul_nonneg hg (sub_nonneg.mpr hnext)]
  · refine ⟨(sortQ xs).getD ⌊p * (((sortQ xs).length - 1 : ℕ) : ℚ)⌋₊ 0, ?_, ?_⟩
    · rw [quantileQ]
      simp only [hempty, Bool.false_eq_true, if_false, if_neg hcase]
    · refine ⟨(sortQ xs).get ⟨0, hpos⟩, hmem, ?_⟩
      rw [hgetD _ hilt]
      exact h0i

theorem meanQ_le_of_forall (xs : List ℚ) (q : ℚ) (hne : xs ≠ [])
    (h : ∀ x ∈ xs, x ≤ q) : ∃ c, meanQ xs = some c ∧ c ≤ q := by
  have hlen : 0 < xs.length := List.length_pos.mpr hne
  refine ⟨xs.sum / xs.length, ?_, ?_⟩
  · rw [meanQ, if_neg (by simp [hne])]
  · rw [div_le_iff₀ (by positivity)]
    calc xs.sum ≤ xs.length • q := List.sum_le_card_nsmul xs q h
      _ = (xs.length : ℚ) * q := by simp [nsmul_eq_mul]
      _ = q * (xs.length : ℚ) := mul_comm _ _

/-- The formalisation of claim C7 exactly as stated: CVaR never exceeds
VaR, and equality is possible only for degenerate all-equal columns. -/
def claimC7Prop : Prop :=
  ∀ xs : List Val, dropNa xs ≠ [] →
    ∃ q c, quantileV 0.05 xs = some q ∧ cvar95 xs = some c ∧ c ≤ q ∧
      (c = q → ∀ x ∈ dropNa xs, ∀ y ∈ dropNa xs, x = y)

/-- Counterexample to claim C7 as stated: on the column `[0, 0, 1]` the
5th percentile is `0` (the interpolation weight multiplies a zero gap) and
the tail mean is also `0`, so `cvar_95 = var_95` although the column is
not all-equal. -/
theorem claim_C7_counterexample : ¬ claimC7Prop := by
  intro hcl
  have hd : dropNa [some (0 : ℚ), some 0, some 1] = [0, 0, 1] := by
    simp [dropNa]
  obtain ⟨q, c, hq, hc, hle, hdeg⟩ :=
    hcl [some (0 : ℚ), some 0, some 1] (by rw [hd]; simp)
  have hsort : sortQ [(0 : ℚ), 0, 1] = [0, 0, 1] := by
    norm_num [sortQ, List.insertionSort, List.orderedInsert]
  have hf : (⌊(1 : ℚ) / 10⌋₊ : ℕ) = 0 := by norm_num
  have hq2 : quantileV 0.05 [some (0 : ℚ), some 0, some 1] = some 0 := by
    rw [quantileV, hd, quantileQ, hsort]
    norm_num [hf]
  have ht2 : tailFilter [some (0 : ℚ), some 0, some 1] = [0, 0] := by
    rw [tailFilter, hd, hq2]
    norm_num [leVal, List.filter]
  have hc2 : cvar95 [some (0 : ℚ), some 0, some 1] = some 0 := by
    rw [cvar95, ht2]
    norm_num [meanQ]
  rw [hq2] at hq
  rw [hc2] at hc
  have hq0 : q = 0 := by injection hq.symm
  have hc0 : c = 0 := by injection hc.symm
  have h01 : (0 : ℚ) = 1 := by
    refine hdeg (by rw [hq0, hc0]) 0 ?_ 1 ?_ <;> rw [hd] <;> simp
  norm_num at h01

/-- Claim C7, amended: for every non-empty sample column `cvar_95 ≤
var_95` always holds (the tail below the 5th percentile is non-empty and
every tail value is at most the percentile); but equality does not force
an all-equal column — see the counterexample `[0, 0, 1]`. -/
theorem claim_C7_amended (xs : List Val) (h : dropNa xs ≠ []) :
    ∃ q c, quantileV 0.05 xs = some q ∧ cvar95 xs = some c ∧ c ≤ q := by
  obtain ⟨q, hq, x0, hx0mem, hx0le⟩ :=
    quantileQ_spec 0.05 (dropNa xs) (by norm_num) (by norm_num) h
  have hqv : quantileV 0.05 xs = some q := hq
  have htail : tailFilter xs = (dropNa xs).filter (fun x => decide (x ≤ q)) := by
    rw [tailFilter]
    congr 1
    funext x
    rw [hqv, leVal]
  have hmemtail : x0 ∈ tailFilter xs := by
    rw [htail, List.mem_filter]
    exact ⟨hx0mem, by simpa using hx0le⟩
  have htne : tailFilter xs ≠ [] := List.ne_nil_of_mem hmemtail
  have hall : ∀ y ∈ tailFilter xs, y ≤ q := by
    intro y hy
    rw [htail, List.mem_filter] at hy
    simpa using hy.2
  obtain ⟨c, hc, hcq⟩ := meanQ_le_of_forall (tailFilter xs) q htne hall
  exact ⟨q, c, hqv, hc, hcq⟩

/-- Witness for C7 (amended) on the column `[0, 1]`: the 5th percentile is
`1/20` and the tail mean is `0`. -/
theorem claim_C7_witness :
    dropNa [some (0 : ℚ), some 1] ≠ [] ∧
    quantileV 0.05 [some (0 : ℚ), some 1] = some (1/20) ∧
    cvar95 [some (0 : ℚ), some 1] = some 0 ∧ (0 : ℚ) ≤ 1/20 := by
  obtain ⟨q, c, hq, hc, hle⟩ :=
    claim_C7_amended [some (0 : ℚ), some 1] (by simp [dropNa])
  have hd : dropNa [some (0 : ℚ), some 1] = [0, 1] := by simp [dropNa]
  have hsort : sortQ [(0 : ℚ), 1] = [0, 1] := by
    norm_num [sortQ, List.insertionSort, List.orderedInsert]
  have hf : (⌊(1 : ℚ) / 20⌋₊ : ℕ) = 0 := by norm_num
  have hq2 : quantileV 0.05 [some (0 : ℚ), some 1] = some (1/20) := by
    rw [quantileV, hd, quantileQ, hsort]
    norm_num [hf]
  have ht2 : tailFilter [some (0 : ℚ), some 1] = [0] := by
    rw [tailFilter, hd, hq2]
    norm_num [leVal, List.filter]
  have hc2 : cvar95 [some (0 : ℚ), some 1] = some 0 := by
    rw [cvar95, ht2]
    norm_num [meanQ]
  exact ⟨by simp [dropNa], hq2, hc2, by norm_num⟩

theorem run_simulation_mem (sq : ℚ → ℚ) (rngs : String → Rng) (data : Dataset)
    (dists : List (String × DistInfo)) (n : ℕ)
    (scens : List (String × List (String × ℚ)))
    (res : List (String × ScenResult))
    (hres : run_simulation sq rngs data dists n scens = Except.ok res) :
    ∀ x ∈ res, ∃ p ∈ scens, x.1 = p.1 ∧
      runScen sq (rngs p.1) data dists n p.2 = Except.ok x.2 := by
  induction scens generalizing res with
  | nil =>
    simp only [run_simulation] at hres
    have : ([] : List (String × ScenResult)) = res := by
      injection hres
    subst this
    simp
  | cons a as ih =>
    simp only [run_simulation] at hres
    rcases hsc : runScen sq (rngs a.1) data dists n a.2 with e | r
    · rw [hsc] at hres
      exact absurd hres (by simp)
    · rw [hsc] at hres
      rcases hrest : run_simulation sq rngs data dists n as with e | rs
      · rw [hrest] at hres
        exact absurd hres (by simp)
      · rw [hrest] at hres
        have hres2 : (a.1, r) :: rs = res := by injection hres
        subst hres2
        intro x hx
        rcases List.mem_cons.mp hx with rfl | hx2
        · exact ⟨a, by simp, rfl, hsc⟩
        · rcases ih rs hrest x hx2 with ⟨p, hp, h1, h2⟩
          exact ⟨p, by simp [hp], h1, h2⟩

/-- The formalisation of claim C1 exactly as stated: every reported
`prob_loss` is the fraction of the column strictly below the **baseline
scenario sample mean** for that column. -/
def claimC1Prop (sq : ℚ → ℚ) (rngs : String → Rng) (data : Dataset)
    (dists : List (String × DistInfo)) (n : ℕ)
    (scens : List (String × List (String × ℚ))) : Prop :=
  ∀ res, run_simulation sq rngs data dists n scens = Except.ok res →
    ∀ sname r, (sname, r) ∈ res →
    ∀ bres, ("baseline", bres) ∈ res →
    ∀ cname rm, (cname, rm) ∈ r.risk_metrics →
      rm.prob_loss = probLoss (getColS r.samples cname)
        (meanQ (dropNa (getColS bres.samples cname)))

/-- The dataset of the C1 counterexample: historical `Total_Estimate`
values `0` and `20`, so the historical mean is `10`. -/
def c1data : Dataset := [("Total_Estimate", [some 0, some 20])]

/-- The fitted record of the C1 counterexample: `normal(30, 0)`, so the
baseline scenario samples are constantly `30`. -/
def c1info : DistInfo :=
  { distribution := some "norm", params := some (FitParams.pNorm 30 0),
    ks_statistic := some 0, data_range := (some 0, some 20),
    mean := some 10, std := some 1 }

/-- The fitted map of the C1 counterexample. -/
def c1dists : List (String × DistInfo) := [("Total_Estimate", c1info)]

/-- The scenario set of the C1 counterexample: baseline, and a `2/3`
multiplier scenario whose samples are constantly `20`. -/
def c1scens : List (String × List (String × ℚ)) :=
  [("baseline", []), ("down", [("Total_Estimate", (2 : ℚ)/3)])]

/-- The baseline scenario result of the C1 counterexample. -/
def c1Bres : ScenResult :=
  { samples := [("Total_Estimate", [some 30])]
    statistics := [("Total_Estimate", computeStats id [some 30])]
    risk_metrics := [("Total_Estimate",
      computeRisk [some 30] (baselineMeanFor c1data [some 30]))] }

/-- The shocked scenario result of the C1 counterexample. -/
def c1Dres : ScenResult :=
  { samples := [("Total_Estimate", [some 20])]
    statistics := [("Total_Estimate", computeStats id [some 20])]
    risk_metrics := [("Total_Estimate",
      computeRisk [some 20] (baselineMeanFor c1data [some 20]))] }

theorem c1genB : generate_samples zeroRng c1dists 1 [] =
    Except.ok [("Total_Estimate", [some 30])] := by
  rw [generate_samples_eq _ _ _ _ (by simp [c1dists])]
  norm_num +decide [baseTable, genColumn, c1dists, c1info, lookupAdj, zeroRng,
    normalDraw, vAdd, vMul, componentCols, List.range, List.range.loop]

theorem c1genD : generate_samples zeroRng c1dists 1 [("Total_Estimate", (2 : ℚ)/3)] =
    Except.ok [("Total_Estimate", [some 20])] := by
  rw [generate_samples_eq _ _ _ _ (by simp [c1dists])]
  norm_num +decide [baseTable, genColumn, c1dists, c1info, lookupAdj, zeroRng,
    normalDraw, vAdd, vMul, componentCols, List.range, List.range.loop,
    List.find?]

theorem c1runB : runScen id zeroRng c1data c1dists 1 [] = Except.ok c1Bres := by
  simp only [runScen, c1genB]
  rfl

theorem c1runD : runScen id zeroRng c1data c1dists 1 [("Total_Estimate", (2 : ℚ)/3)] =
    Except.ok c1Dres := by
  simp only [runScen, c1genD]
  rfl

theorem c1run : run_simulation id (fun _ => zeroRng) c1data c1dists 1 c1scens =
    Except.ok [("baseline", c1Bres), ("down", c1Dres)] := by
  simp only [run_simulation, c1scens, c1runB, c1runD]

/-- Counterexample to claim C1: the code computes `prob_loss` against the
historical dataset mean of `Total_Estimate` (here `10`), not against the
baseline scenario sample mean (here `30`).  In the `down` scenario the
samples are constantly `20`: the code reports `prob_loss = 0` (no sample
below `10`) while the claim demands `1` (all samples below `30`). -/
theorem claim_C1_counterexample :
    ¬ claimC1Prop id (fun _ => zeroRng) c1data c1dists 1 c1scens := by
  intro h
  have happ := h [("baseline", c1Bres), ("down", c1Dres)] c1run
    "down" c1Dres (by simp) c1Bres (by simp) "Total_Estimate"
    (computeRisk [some 20] (baselineMeanFor c1data [some 20]))
    (by simp [c1Dres])
  have hlhs : (computeRisk [some 20]
      (baselineMeanFor c1data [some 20])).prob_loss = some 0 := by
    have hbm : baselineMeanFor c1data [some 20] = some 10 := by
      have hdna : dropNa [some (0 : ℚ), some 20] = [0, 20] := by simp [dropNa]
      rw [baselineMeanFor]
      norm_num +decide [c1data, getCol, List.find?, hdna, meanQ]
    rw [computeRisk, hbm]
    norm_num [probLoss, vltB, List.countP, List.countP.go]
  have hrhs : probLoss (getColS c1Dres.samples "Total_Estimate")
      (meanQ (dropNa (getColS c1Bres.samples "Total_Estimate"))) = some 1 := by
    have hcol : getColS c1Dres.samples "Total_Estimate" = [some 20] := by
      norm_num +decide [c1Dres, getColS, List.find?]
    have hcolB : getColS c1Bres.samples "Total_Estimate" = [some 30] := by
      norm_num +decide [c1Bres, getColS, List.find?]
    rw [hcol, hcolB]
    have hm : meanQ (dropNa [some (30 : ℚ)]) = some 30 := by
      have hdna : dropNa [some (30 : ℚ)] = [30] := by simp [dropNa]
      rw [hdna]
      norm_num [meanQ]
    rw [hm]
    norm_num [probLoss, vltB, List.countP, List.countP.go]
  rw [happ, hrhs] at hlhs
  exact absurd hlhs (by norm_num)

/-- Claim C1, amended: the reported `prob_loss` of every
`Total_Estimate`-matching column, in every scenario, is the fraction of
that column strictly below the **historical dataset mean** of the
`Total_Estimate` column when the dataset has that column (the baseline
scenario sample mean is never consulted), and below the column own
sample mean otherwise. -/
theorem runScen_eq (sq : ℚ → ℚ) (rng : Rng) (data : Dataset)
    (dists : List (String × DistInfo)) (n : ℕ) (adjs : List (String × ℚ))
    (t : SampleTable) (hgen : generate_samples rng dists n adjs = Except.ok t) :
    runScen sq rng data dists n adjs = Except.ok
      ⟨t, t.map (fun p => (p.1, computeStats sq p.2)),
        (t.filter (fun p => containsTE p.1)).map
          (fun p => (p.1, computeRisk p.2 (baselineMeanFor data p.2)))⟩ := by
  unfold runScen
  rw [hgen]

theorem claim_C1_amended (sq : ℚ → ℚ) (rngs : String → Rng) (data : Dataset)
    (dists : List (String × DistInfo)) (n : ℕ)
    (scens : List (String × List (String × ℚ)))
    (res : List (String × ScenResult))
    (hres : run_simulation sq rngs data dists n scens = Except.ok res)
    (sname : String) (r : ScenResult) (hmem : (sname, r) ∈ res)
    (cname : String) (rm : RiskMetrics) (hrm : (cname, rm) ∈ r.risk_metrics) :
    containsTE cname = true ∧
    ∃ xs, (cname, xs) ∈ r.samples ∧
      rm.prob_loss = probLoss xs (baselineMeanFor data xs) := by
  obtain ⟨p, _, _, hrun⟩ :=
    run_simulation_mem sq rngs data dists n scens res hres (sname, r) hmem
  rcases hgen : generate_samples (rngs p.1) dists n p.2 with e | t
  · rw [runScen, hgen] at hrun
    exact absurd hrun (by simp)
  · rw [runScen_eq sq (rngs p.1) data dists n p.2 t hgen] at hrun
    have hr : r = ⟨t, t.map (fun p => (p.1, computeStats sq p.2)),
        (t.filter (fun p => containsTE p.1)).map
          (fun p => (p.1, computeRisk p.2 (baselineMeanFor data p.2)))⟩ := by
      have h2 : (⟨t, t.map (fun p => (p.1, computeStats sq p.2)),
          (t.filter (fun p => containsTE p.1)).map
            (fun p => (p.1, computeRisk p.2 (baselineMeanFor data p.2)))⟩ :
          ScenResult) = (sname, r).2 := by
        injection hrun
      exact h2.symm
    rw [hr] at hrm
    simp only [List.mem_map] at hrm
    obtain ⟨p0, hp0, hp0eq⟩ := hrm
    rw [List.mem_filter] at hp0
    have hc1 : p0.1 = cname := congrArg Prod.fst hp0eq
    have hc2 : rm = computeRisk p0.2 (baselineMeanFor data p0.2) :=
      (congrArg Prod.snd hp0eq).symm
    refine ⟨hc1 ▸ hp0.2, p0.2, ?_, ?_⟩
    · rw [hr]
      have hpair : (cname, p0.2) = p0 := by
        rw [← hc1]
      rw [hpair]
      exact hp0.1
    · rw [hc2]
      rfl

/-- Witness for C1 (amended) at the concrete counterexample run: in the
`down` scenario the reported `prob_loss` of `Total_Estimate` is the loss
fraction against the dataset reference, and the column indeed matches
`Total_Estimate`. -/
theorem claim_C1_witness :
    containsTE "Total_Estimate" = true ∧
    ("Total_Estimate", [some (20 : ℚ)]) ∈ c1Dres.samples ∧
    (computeRisk [some 20] (baselineMeanFor c1data [some 20])).prob_loss =
      probLoss [some 20] (baselineMeanFor c1data [some 20]) := by
  obtain ⟨hcte, xs, hxs, heq⟩ := claim_C1_amended id (fun _ => zeroRng) c1data
    c1dists 1 c1scens [("baseline", c1Bres), ("down", c1Dres)] c1run
    "down" c1Dres (by simp) "Total_Estimate"
    (computeRisk [some 20] (baselineMeanFor c1data [some 20]))
    (by simp [c1Dres])
  have hx2 : xs = [some (20 : ℚ)] := by
    simpa [c1Dres] using hxs
  rw [hx2] at heq
  exact ⟨hcte, by simp [c1Dres], heq⟩

end MonteCarlo
